import Mathlib

/-!
Shallow embedding of the `vol_surface.py` implied-volatility-surface pipeline
(`load_trades`, `filter_trades`, `aggregate_curves`, `build_animation`).

Modelling conventions:
* pandas numeric columns that may hold `NaN`/`NaT` after a coercing parse are
  `Option ℚ`; a pandas comparison against `NaN` is `false`, which the `o*`
  comparison helpers below reproduce.
* timestamps are rational minutes since the civil epoch 1970-01-01; calendar
  dates are integer day numbers since that epoch (`daysFromCivil`).
* exceptions that escape a Python function are `Except.error`.
-/

namespace VolSurface

/-- Pandas-style comparison `x ≥ c` on a column value: `false` on `NaN`. -/
def oge (x : Option ℚ) (c : ℚ) : Bool :=
  match x with
  | some v => decide (c ≤ v)
  | none => false

/-- Pandas-style comparison `x > c` on a column value: `false` on `NaN`. -/
def ogt (x : Option ℚ) (c : ℚ) : Bool :=
  match x with
  | some v => decide (c < v)
  | none => false

/-- Pandas-style comparison `x < c` on a column value: `false` on `NaN`. -/
def olt (x : Option ℚ) (c : ℚ) : Bool :=
  match x with
  | some v => decide (v < c)
  | none => false

/-- Pandas-style comparison `x ≤ c` on a column value: `false` on `NaN`. -/
def ole (x : Option ℚ) (c : ℚ) : Bool :=
  match x with
  | some v => decide (v ≤ c)
  | none => false

/-- Pandas-style elementwise `x < y` between two columns: `false` if either is `NaN`. -/
def oltv (x y : Option ℚ) : Bool :=
  match x, y with
  | some a, some b => decide (a < b)
  | _, _ => false

/-- Gregorian leap-year test, as used by the datetime library behind
`pd.to_datetime`. -/
def isLeapYear (y : ℕ) : Bool :=
  y % 4 == 0 && (y % 100 != 0 || y % 400 == 0)

/-- Number of days in month `m` of year `y`. -/
def daysInMonth (y m : ℕ) : ℕ :=
  if m = 2 then (if isLeapYear y then 29 else 28)
  else if m = 4 ∨ m = 6 ∨ m = 9 ∨ m = 11 then 30
  else 31

/-- Day number of the civil date `y-m-d` relative to 1970-01-01
(the standard days-from-civil algorithm). -/
def daysFromCivil (y : ℤ) (m d : ℕ) : ℤ :=
  let yy : ℤ := if m ≤ 2 then y - 1 else y
  let era : ℤ := (if 0 ≤ yy then yy else yy - 399) / 400
  let yoe : ℤ := yy - era * 400
  let mp : ℤ := ((m : ℤ) + 9) % 12
  let doy : ℤ := (153 * mp + 2) / 5 + (d : ℤ) - 1
  let doe : ℤ := yoe * 365 + yoe / 4 - yoe / 100 + doy
  era * 146097 + doe - 719468

/-- `pd.to_datetime` applied to the composed string
`str(okey_yr) + '-' + zfill(okey_mn) + '-' + zfill(okey_dy)` (line 28 of
`vol_surface.py`): it succeeds exactly on valid calendar components and
RAISES otherwise (the call has no `errors='coerce'`).  `none` stands for the
raising outcome. -/
def parseExpiration (y m d : ℕ) : Option ℤ :=
  if 1 ≤ m ∧ m ≤ 12 ∧ 1 ≤ d ∧ d ≤ daysInMonth y m then
    some (daysFromCivil (y : ℤ) m d)
  else none

/-- One raw CSV row as it stands after the column-level coercions of
`load_trades` lines 17-23: `tsParsed` is the `pd.to_datetime(..., errors='coerce')`
result for the timestamp column (minutes, `none` = `NaT`), and the numeric
columns are the `pd.to_numeric(..., errors='coerce')` results. -/
structure CsvRow where
  tsParsed : Option ℚ
  ticker_tk : String
  okey_yr : ℕ
  okey_mn : ℕ
  okey_dy : ℕ
  okey_xx : Option ℚ
  okey_cp : String
  prtPrice : Option ℚ
  prtSize : Option ℚ
  prtIv : Option ℚ
  uPrc : Option ℚ
deriving DecidableEq, Repr

/-- A parsed trade record: output row of `load_trades`. -/
structure Trade where
  timestamp : Option ℚ
  ticker : String
  okey_xx : Option ℚ
  okey_cp : String
  prtPrice : Option ℚ
  prtSize : Option ℚ
  prtIv : Option ℚ
  uPrc : Option ℚ
  expiration : ℤ
deriving DecidableEq, Repr

def expirationErrMsg : String := "ValueError: could not parse expiration date"

/-- Build one `Trade` from a CSV row: shift the timestamp by the fixed −5h
(−300 minutes) offset of line 19, and parse the expiration date of lines
28-32, raising on malformed components. -/
def toTrade (r : CsvRow) : Except String Trade :=
  match parseExpiration r.okey_yr r.okey_mn r.okey_dy with
  | some e =>
      Except.ok
        { timestamp := r.tsParsed.map (fun t => t - 300)
          ticker := r.ticker_tk
          okey_xx := r.okey_xx
          okey_cp := r.okey_cp
          prtPrice := r.prtPrice
          prtSize := r.prtSize
          prtIv := r.prtIv
          uPrc := r.uPrc
          expiration := e }
  | none => Except.error expirationErrMsg

/-- Map a fallible row transform over a column, stopping at the first raise
(the vectorised pandas behaviour of `df['expiration'] = pd.to_datetime(...)`). -/
def mapRows (f : CsvRow → Except String Trade) : List CsvRow → Except String (List Trade)
  | [] => Except.ok []
  | r :: rs =>
      match f r, mapRows f rs with
      | Except.error e, _ => Except.error e
      | Except.ok t, Except.ok ts => Except.ok (t :: ts)
      | Except.ok _, Except.error e => Except.error e

/-- `load_trades`: when a `ticker_tk` column is present, keep only rows whose
ticker equals the hardcoded constant `'SPY'` (lines 25-26), then derive the
expiration date (lines 28-32).  The timestamp/numeric coercions of lines
17-23 are reflected in the `CsvRow` fields. -/
def loadTrades (hasTickerCol : Bool) (rows : List CsvRow) : Except String (List Trade) :=
  let kept := if hasTickerCol then rows.filter (fun r => decide (r.ticker_tk = "SPY")) else rows
  mapRows toTrade kept

/-- The first admission predicate of `filter_trades` (lines 38-44):
price ≥ 0.05, size > 0, 0.02 < IV < 1.0, underlying price > 0. -/
def passesQuality (t : Trade) : Bool :=
  oge t.prtPrice 0.05 && ogt t.prtSize 0 && ogt t.prtIv 0.02 && olt t.prtIv 1.0
    && ogt t.uPrc 0

/-- `moneyness = okey_xx / uPrc` (line 46); `NaN` operands propagate. -/
def tradeMoneyness (t : Trade) : Option ℚ :=
  match t.okey_xx, t.uPrc with
  | some k, some u => some (k / u)
  | _, _ => none

/-- The moneyness band filter of line 47: `0.80 ≤ moneyness ≤ 1.20`. -/
def passesBand (t : Trade) : Bool :=
  oge (tradeMoneyness t) 0.80 && ole (tradeMoneyness t) 1.20

/-- The OTM classification of lines 49-52:
`(Put ∧ strike < uPrc) ∨ (Call ∧ strike > uPrc)`. -/
def isOtmOf (t : Trade) : Bool :=
  (decide (t.okey_cp = "Put") && oltv t.okey_xx t.uPrc)
    || (decide (t.okey_cp = "Call") && oltv t.uPrc t.okey_xx)

/-- A cleaned trade: the trade plus the derived columns added by
`filter_trades`. -/
structure CleanTrade where
  base : Trade
  moneyness : Option ℚ
  is_otm : Bool
  bucket_time : Option ℚ
  days_to_exp : Option ℤ
deriving DecidableEq, Repr

/-- `timestamp.dt.floor(bucket_freq)` for one value, in minutes (line 54). -/
def floorToBucket (bf : ℚ) (x : ℚ) : ℚ :=
  bf * (⌊x / bf⌋ : ℤ)

/-- Derived columns of lines 46-54 for one surviving trade
(`days_to_exp` is filled in afterwards, once the reference date is known). -/
def mkClean (bf : ℚ) (t : Trade) : CleanTrade :=
  { base := t
    moneyness := tradeMoneyness t
    is_otm := isOtmOf t
    bucket_time := t.timestamp.map (floorToBucket bf)
    days_to_exp := none }

/-- Minimum of a column, skipping missing values (pandas `Series.min`). -/
def qmin (xs : List ℚ) : Option ℚ :=
  match xs with
  | [] => none
  | x :: rest => some (rest.foldl min x)

/-- `(expiration - ref_date).dt.days`: the timedelta between the expiration
midnight and `ref_date` (both in minutes), floored to whole days. -/
def daysToExp (refDate : Option ℚ) (e : ℤ) : Option ℤ :=
  refDate.map (fun rd => ⌊((e : ℚ) * 1440 - rd) / 1440⌋)

/-- `filter_trades` (lines 37-60): admission predicate, moneyness band, OTM
flag, 5-minute bucketing, days-to-expiration relative to the earliest bucket
normalised to midnight, and the final `days_to_exp > 0` filter. -/
def filterTrades (bf : ℚ) (trades : List Trade) : List CleanTrade :=
  let admitted := (trades.filter passesQuality).filter passesBand
  let cleaned := admitted.map (mkClean bf)
  let refDate : Option ℚ :=
    (qmin (cleaned.filterMap (fun c => c.bucket_time))).map
      (fun m => 1440 * (⌊m / 1440⌋ : ℤ))
  let withDte := cleaned.map
    (fun c => { c with days_to_exp := daysToExp refDate c.base.expiration })
  withDte.filter (fun c =>
    match c.days_to_exp with
    | some d => decide (0 < d)
    | none => false)

/-- The five-component groupby key of `aggregate_curves` line 64:
`(bucket_time, expiration, okey_xx, okey_cp, is_otm)`. -/
structure GroupKey where
  bucket_time : ℚ
  expiration : ℤ
  strike : ℚ
  cp : String
  is_otm : Bool
deriving DecidableEq, Repr

/-- Key of one cleaned trade; `none` when a key component is missing
(pandas `groupby` drops such rows). -/
def keyOf (c : CleanTrade) : Option GroupKey :=
  match c.bucket_time, c.base.okey_xx with
  | some b, some k =>
      some { bucket_time := b, expiration := c.base.expiration, strike := k
             cp := c.base.okey_cp, is_otm := c.is_otm }
  | _, _ => none

/-- The rows of one group. -/
def groupOf (rows : List CleanTrade) (k : GroupKey) : List CleanTrade :=
  rows.filter (fun c => decide (keyOf c = some k))

/-- `(prtIv, prtSize)` pairs of a group; `none` as soon as either column holds
a missing value (`np.average` then yields `NaN`). -/
def ivSizePairs : List CleanTrade → Option (List (ℚ × ℚ))
  | [] => some []
  | c :: g =>
      match c.base.prtIv, c.base.prtSize, ivSizePairs g with
      | some v, some w, some rest => some ((v, w) :: rest)
      | _, _, _ => none

/-- `np.average(prtIv, weights=prtSize)` over one group (line 65).  A missing
value poisons the result to `NaN` (`none`); an all-zero weight sum (which
would make `np.average` raise) is also modelled as `none`. -/
def groupIv (g : List CleanTrade) : Option ℚ :=
  match ivSizePairs g with
  | some vw =>
      let wsum := (vw.map Prod.snd).sum
      if wsum = 0 then none
      else some ((vw.map (fun q => q.1 * q.2)).sum / wsum)
  | none => none

/-- `prtSize` sum over one group (pandas `'sum'` skips missing values). -/
def groupVolume (g : List CleanTrade) : ℚ :=
  (g.filterMap (fun c => c.base.prtSize)).sum

/-- One aggregated curve row (columns renamed as in lines 72-73). -/
structure CurvePoint where
  bucket_time : ℚ
  expiration : ℤ
  strike : ℚ
  cp : String
  is_otm : Bool
  iv : Option ℚ
  volume : ℚ
  days_to_exp : Option ℤ
  underlying : Option ℚ
  moneyness : Option ℚ
deriving DecidableEq, Repr

/-- The five key columns of an aggregated row. -/
def keyTuple (p : CurvePoint) : GroupKey :=
  { bucket_time := p.bucket_time, expiration := p.expiration, strike := p.strike
    cp := p.cp, is_otm := p.is_otm }

/-- The aggregated row of one group: volume-weighted IV, summed size, and the
first non-missing `days_to_exp` / `uPrc` / `moneyness` (pandas `'first'`). -/
def aggKey (rows : List CleanTrade) (k : GroupKey) : CurvePoint :=
  let g := groupOf rows k
  { bucket_time := k.bucket_time, expiration := k.expiration, strike := k.strike
    cp := k.cp, is_otm := k.is_otm
    iv := groupIv g
    volume := groupVolume g
    days_to_exp := (g.filterMap (fun c => c.days_to_exp)).head?
    underlying := (g.filterMap (fun c => c.base.uPrc)).head?
    moneyness := (g.filterMap (fun c => c.moneyness)).head? }

/-- The groupby/agg step of lines 64-70: one aggregated row per distinct key. -/
def groupAgg (rows : List CleanTrade) : List CurvePoint :=
  ((rows.filterMap keyOf).dedup).map (aggKey rows)

/-- `aggregate_curves` (lines 63-79): the groupby/agg step followed by the
post-aggregation filters `volume ≥ min_volume`, `0.05 ≤ iv ≤ 0.35`,
`days_to_exp ≤ 60`. -/
def aggregateCurves (minVolume : ℚ) (rows : List CleanTrade) : List CurvePoint :=
  (((groupAgg rows).filter (fun p => decide (minVolume ≤ p.volume))).filter
      (fun p => oge p.iv 0.05 && ole p.iv 0.35)).filter
    (fun p =>
      match p.days_to_exp with
      | some d => decide (d ≤ 60)
      | none => false)

/-- Insert into a sorted list (ascending). -/
def insSorted (x : ℚ) : List ℚ → List ℚ
  | [] => [x]
  | y :: ys => if x ≤ y then x :: y :: ys else y :: insSorted x ys

/-- Ascending insertion sort. -/
def sortQ (xs : List ℚ) : List ℚ :=
  xs.foldr insSorted []

/-- Pandas `Series.median`: skip missing values, sort, take the middle element
(odd count) or the mean of the two middle elements (even count). -/
def medianQ (xs : List ℚ) : Option ℚ :=
  let s := sortQ xs
  if s.length = 0 then none
  else if s.length % 2 = 1 then s[s.length / 2]?
  else
    match s[s.length / 2 - 1]?, s[s.length / 2]? with
    | some a, some b => some ((a + b) / 2)
    | _, _ => none

/-- `np.linspace a b n`: `n` evenly spaced points from `a` to `b` inclusive. -/
def linspace (a b : ℚ) (n : ℕ) : List ℚ :=
  (List.range n).map (fun (i : ℕ) => a + (b - a) * (i : ℚ) / ((n : ℚ) - 1))

/-- The view selection of lines 94-99. -/
def selectView (view : String) (curves : List CurvePoint) : List CurvePoint :=
  if view = "puts" then curves.filter (fun p => decide (p.cp = "Put"))
  else if view = "calls" then curves.filter (fun p => decide (p.cp = "Call"))
  else curves

/-- One `Scatter3d` trace: the subset of curve rows it plots
(`x=strike, y=days_to_exp, z=iv*100`) and its legend label. -/
structure ScatterTrace where
  pts : List CurvePoint
  label : String
deriving DecidableEq, Repr

/-- One `Surface` trace: the grid axes it is evaluated on and the interpolated
values (`none` = `NaN`, e.g. outside the convex hull). -/
structure SurfaceTrace where
  kGrid : List (Option ℚ)
  tGrid : List ℚ
  z : List (List (Option ℚ))
deriving DecidableEq, Repr

/-- One animation frame: bucket name, optional interpolated surface, scatter
traces, and the x-position of the ATM marker line (the fixed spot). -/
structure Frame where
  name : ℚ
  surface : Option SurfaceTrace
  scatters : List ScatterTrace
  atmX : Option ℚ
deriving DecidableEq, Repr

/-- Interface of `scipy.interpolate.griddata(points, values, grid, 'linear')`:
an external scattered-data interpolator that may raise (e.g. a `QhullError` on
a degenerate point configuration).  `build_animation` is parametric in it. -/
def Interp : Type :=
  List (ℚ × Option ℤ × Option ℚ) → List (Option ℚ) → List ℚ →
    Except String (List (List (Option ℚ)))

/-- The strike axis of lines 86-87: 25 points spanning
`[0.90*spot, 1.10*spot]`; every entry is `NaN` when `spot` is `NaN`. -/
def kGridOf (spot : Option ℚ) : List (Option ℚ) :=
  match spot with
  | some s => (linspace (0.90 * s) (1.10 * s) 25).map some
  | none => List.replicate 25 none

/-- The tenor axis of line 88: 18 points spanning `[1, 45]`. -/
def tGridDef : List ℚ :=
  linspace 1 45 18

/-- The scattered points handed to `griddata` (lines 114-115):
`(strike, days_to_exp, iv*100)` of each OTM row. -/
def otmPoints (otm : List CurvePoint) : List (ℚ × Option ℤ × Option ℚ) :=
  otm.map (fun p => (p.strike, p.days_to_exp, p.iv.map (fun v => v * 100)))

/-- The scatter traces of lines 129-149: per-side subsets when `view='both'`
(a side is emitted only when its subset is nonempty), otherwise one trace of
the whole bucket. -/
def scatterTraces (view : String) (btData : List CurvePoint) : List ScatterTrace :=
  if view = "both" then
    (if 0 < (btData.filter (fun p => decide (p.cp = "Put"))).length then
      [ScatterTrace.mk (btData.filter (fun p => decide (p.cp = "Put"))) "Put"]
    else []) ++
    (if 0 < (btData.filter (fun p => decide (p.cp = "Call"))).length then
      [ScatterTrace.mk (btData.filter (fun p => decide (p.cp = "Call"))) "Call"]
    else [])
  else [ScatterTrace.mk btData view]

/-- The frame built for one bucket with data `btData` (lines 108-159): the
surface is attempted only when at least 5 OTM rows remain, and any
interpolation error is swallowed (`except: pass`), dropping only the surface.
The ATM marker line (lines 151-156) makes the trace list nonempty, so the
`if frame_traces` guard of line 158 always passes. -/
def mkFrame (interp : Interp) (view : String) (spot : Option ℚ) (bt : ℚ)
    (btData : List CurvePoint) : Frame :=
  let otm := btData.filter (fun p => p.is_otm == true)
  let surface : Option SurfaceTrace :=
    if 5 ≤ otm.length then
      match interp (otmPoints otm) (kGridOf spot) tGridDef with
      | Except.ok z => some (SurfaceTrace.mk (kGridOf spot) tGridDef z)
      | Except.error _ => none
    else none
  { name := bt, surface := surface, scatters := scatterTraces view btData
    atmX := spot }

/-- `sorted(curves['bucket_time'].unique())` (line 83). -/
def bucketsOf (curves : List CurvePoint) : List ℚ :=
  sortQ ((curves.map (fun p => p.bucket_time)).dedup)

/-- The frame loop of `build_animation` (lines 83-159): the spot (median
underlying over the whole curve) and the grid are computed once, before the
loop; buckets with fewer than 5 rows in the selected view are skipped. -/
def buildFrames (interp : Interp) (view : String) (curves : List CurvePoint) :
    List Frame :=
  let spot := medianQ (curves.filterMap (fun p => p.underlying))
  let data := selectView view curves
  (bucketsOf curves).filterMap (fun bt =>
    let btData := data.filter (fun p => decide (p.bucket_time = bt))
    if btData.length < 5 then none
    else some (mkFrame interp view spot bt btData))

/-- The figure returned by `build_animation`. -/
structure Figure where
  frames : List Frame
deriving DecidableEq, Repr

def indexErrMsg : String := "IndexError: list index out of range"

/-- `build_animation` (lines 82-213): build the frames, then construct the
figure from `frames[0].data` (line 161) — which raises an uncaught
`IndexError` when no bucket produced a frame. -/
def buildAnimation (interp : Interp) (view : String) (curves : List CurvePoint) :
    Except String Figure :=
  match buildFrames interp view curves with
  | [] => Except.error indexErrMsg
  | f :: fs => Except.ok (Figure.mk (f :: fs))

theorem oge_iff {x : Option ℚ} {c : ℚ} : oge x c = true ↔ ∃ v, x = some v ∧ c ≤ v := by
  cases x <;> simp [oge]

theorem ogt_iff {x : Option ℚ} {c : ℚ} : ogt x c = true ↔ ∃ v, x = some v ∧ c < v := by
  cases x <;> simp [ogt]

theorem olt_iff {x : Option ℚ} {c : ℚ} : olt x c = true ↔ ∃ v, x = some v ∧ v < c := by
  cases x <;> simp [olt]

theorem ole_iff {x : Option ℚ} {c : ℚ} : ole x c = true ↔ ∃ v, x = some v ∧ v ≤ c := by
  cases x <;> simp [ole]

theorem passesQuality_iff {t : Trade} :
    passesQuality t = true ↔
      (∃ p, t.prtPrice = some p ∧ (0.05 : ℚ) ≤ p) ∧
      (∃ s, t.prtSize = some s ∧ (0 : ℚ) < s) ∧
      (∃ v, t.prtIv = some v ∧ (0.02 : ℚ) < v ∧ v < (1.0 : ℚ)) ∧
      (∃ u, t.uPrc = some u ∧ (0 : ℚ) < u) := by
  constructor
  · intro h
    simp only [passesQuality, Bool.and_eq_true] at h
    obtain ⟨⟨⟨⟨h1, h2⟩, h3⟩, h4⟩, h5⟩ := h
    obtain ⟨p, hp, hp2⟩ := oge_iff.mp h1
    obtain ⟨s, hs, hs2⟩ := ogt_iff.mp h2
    obtain ⟨v, hv, hv2⟩ := ogt_iff.mp h3
    obtain ⟨v2, hv3, hv4⟩ := olt_iff.mp h4
    obtain ⟨u, hu, hu2⟩ := ogt_iff.mp h5
    rw [hv] at hv3
    exact ⟨⟨p, hp, hp2⟩, ⟨s, hs, hs2⟩, ⟨v, hv, hv2, (Option.some_inj.mp hv3) ▸ hv4⟩,
      ⟨u, hu, hu2⟩⟩
  · rintro ⟨⟨p, hp, hp2⟩, ⟨s, hs, hs2⟩, ⟨v, hv, hv2, hv3⟩, ⟨u, hu, hu2⟩⟩
    simp [passesQuality, oge, ogt, olt, hp, hs, hv, hu, hp2, hs2, hv2, hv3, hu2]

theorem tradeMoneyness_some {t : Trade} {m : ℚ} (h : tradeMoneyness t = some m) :
    ∃ k u, t.okey_xx = some k ∧ t.uPrc = some u ∧ m = k / u := by
  unfold tradeMoneyness at h
  cases hk : t.okey_xx with
  | none => rw [hk] at h; cases h
  | some k =>
    cases hu : t.uPrc with
    | none => rw [hk, hu] at h; cases h
    | some u =>
      rw [hk, hu] at h
      exact ⟨k, u, rfl, rfl, (Option.some_inj.mp h).symm⟩

theorem passesBand_iff {t : Trade} :
    passesBand t = true ↔
      ∃ m, tradeMoneyness t = some m ∧ (0.80 : ℚ) ≤ m ∧ m ≤ (1.20 : ℚ) := by
  constructor
  · intro h
    simp only [passesBand, Bool.and_eq_true] at h
    obtain ⟨h1, h2⟩ := h
    obtain ⟨m, hm, hm2⟩ := oge_iff.mp h1
    obtain ⟨m2, hm3, hm4⟩ := ole_iff.mp h2
    rw [hm] at hm3
    exact ⟨m, hm, hm2, (Option.some_inj.mp hm3) ▸ hm4⟩
  · rintro ⟨m, hm, hm2, hm3⟩
    simp [passesBand, oge, ole, hm, hm2, hm3]

theorem dte_filter_true {o : Option ℤ}
    (h : (match o with | some d => decide (0 < d) | none => false) = true) :
    ∃ d, o = some d ∧ 0 < d := by
  cases o with
  | none => cases h
  | some d => exact ⟨d, rfl, of_decide_eq_true h⟩

/-- Decomposition of membership in the output of `filter_trades`: a surviving
row comes from an input trade that passed both admission filters, and carries
the derived columns of that trade. -/
theorem mem_filterTrades {bf : ℚ} {trades : List Trade} {c : CleanTrade}
    (hc : c ∈ filterTrades bf trades) :
    ∃ t ∈ trades, passesQuality t = true ∧ passesBand t = true ∧
      c.base = t ∧ c.moneyness = tradeMoneyness t ∧ c.is_otm = isOtmOf t ∧
      c.bucket_time = t.timestamp.map (floorToBucket bf) ∧
      ∃ d, c.days_to_exp = some d ∧ 0 < d := by
  simp only [filterTrades] at hc
  rw [List.mem_filter] at hc
  obtain ⟨hmem, hdte⟩ := hc
  rw [List.mem_map] at hmem
  obtain ⟨c2, hc2, rfl⟩ := hmem
  rw [List.mem_map] at hc2
  obtain ⟨t, ht, rfl⟩ := hc2
  rw [List.mem_filter] at ht
  obtain ⟨ht2, hband⟩ := ht
  rw [List.mem_filter] at ht2
  obtain ⟨htmem, hqual⟩ := ht2
  exact ⟨t, htmem, hqual, hband, rfl, rfl, rfl, rfl, dte_filter_true hdte⟩

/-- The six bounds that C1 asserts of every surviving trade. -/
def admissibleBounds (c : CleanTrade) : Prop :=
  (∃ p, c.base.prtPrice = some p ∧ (0.05 : ℚ) ≤ p) ∧
  (∃ s, c.base.prtSize = some s ∧ (0 : ℚ) < s) ∧
  (∃ v, c.base.prtIv = some v ∧ (0.02 : ℚ) < v ∧ v < (1.0 : ℚ)) ∧
  (∃ u, c.base.uPrc = some u ∧ (0 : ℚ) < u) ∧
  (∃ k u, c.base.okey_xx = some k ∧ c.base.uPrc = some u ∧
    c.moneyness = some (k / u) ∧ (0.80 : ℚ) ≤ k / u ∧ k / u ≤ (1.20 : ℚ)) ∧
  (∃ d, c.days_to_exp = some d ∧ 0 < d)

/-- C1: every trade surviving `filter_trades` satisfies price ≥ 0.05,
size > 0, 0.02 < IV < 1.0, underlying price > 0, 0.80 ≤ moneyness ≤ 1.20
(with moneyness = strike / underlying price) and days-to-expiration > 0; and
any input trade failing the admission or moneyness predicate is absent from
the output. -/
theorem filter_trades_admission (bf : ℚ) (trades : List Trade) (c : CleanTrade)
    (hc : c ∈ filterTrades bf trades) :
    admissibleBounds c ∧
      ∀ t ∈ trades, (passesQuality t = false ∨ passesBand t = false) →
        c.base ≠ t := by
  obtain ⟨t, _, hqual, hband, hbase, hmon, _, _, hdte⟩ := mem_filterTrades hc
  obtain ⟨h1, h2, h3, h4⟩ := passesQuality_iff.mp hqual
  obtain ⟨m, hm, hm2, hm3⟩ := passesBand_iff.mp hband
  obtain ⟨k, u, hk, hu, hmval⟩ := tradeMoneyness_some hm
  constructor
  · refine ⟨?_, ?_, ?_, ?_, ?_, ?_⟩
    · rw [hbase]; exact h1
    · rw [hbase]; exact h2
    · rw [hbase]; exact h3
    · rw [hbase]; exact h4
    · exact ⟨k, u, by rw [hbase]; exact hk, by rw [hbase]; exact hu,
        by rw [hmon, hm, hmval], hmval ▸ hm2, hmval ▸ hm3⟩
    · exact hdte
  · intro t2 _ hfail hbase2
    rw [hbase] at hbase2
    subst hbase2
    rcases hfail with hf | hf
    · rw [hqual] at hf; cases hf
    · rw [hband] at hf; cases hf

def wTradeGood : Trade :=
  { timestamp := some 570, ticker := "SPY", okey_xx := some 440, okey_cp := "Put"
    prtPrice := some 1, prtSize := some 10, prtIv := some 0.20, uPrc := some 445
    expiration := 14 }

def wTradeBad : Trade :=
  { timestamp := some 571, ticker := "SPY", okey_xx := some 440, okey_cp := "Put"
    prtPrice := some 0.01, prtSize := some 10, prtIv := some 0.20, uPrc := some 445
    expiration := 14 }

def wCleanGood : CleanTrade :=
  { base := wTradeGood, moneyness := some (88 / 89), is_otm := true
    bucket_time := some 570, days_to_exp := some 14 }

unseal Rat.mul Rat.inv Rat.add Rat.sub Rat.ofScientific in
/-- Witness for C1 at a concrete two-trade input: the good trade survives with
all bounds satisfied and the below-minimum-price trade is absent. -/
theorem filter_trades_admission_witness :
    wCleanGood ∈ filterTrades 5 [wTradeGood, wTradeBad] ∧
      (admissibleBounds wCleanGood ∧
        ∀ t ∈ [wTradeGood, wTradeBad],
          (passesQuality t = false ∨ passesBand t = false) →
            wCleanGood.base ≠ t) :=
  ⟨by decide, filter_trades_admission 5 [wTradeGood, wTradeBad] wCleanGood (by decide)⟩

theorem isOtmOf_eq_true_iff {t : Trade} {k u : ℚ} (hk : t.okey_xx = some k)
    (hu : t.uPrc = some u) :
    isOtmOf t = true ↔
      (t.okey_cp = "Put" ∧ k < u) ∨ (t.okey_cp = "Call" ∧ u < k) := by
  simp [isOtmOf, oltv, hk, hu]

/-- C5: OTM classification is strict.  A trade surviving `filter_trades` has a
strike and an underlying price, is flagged OTM exactly when
`(Put ∧ strike < underlying) ∨ (Call ∧ strike > underlying)`, and an
at-the-money trade (strike = underlying) is OTM for neither option type. -/
theorem otm_strict (bf : ℚ) (trades : List Trade) (c : CleanTrade)
    (hc : c ∈ filterTrades bf trades) :
    ∃ k u, c.base.okey_xx = some k ∧ c.base.uPrc = some u ∧
      (c.is_otm = true ↔
        (c.base.okey_cp = "Put" ∧ k < u) ∨ (c.base.okey_cp = "Call" ∧ u < k)) ∧
      (k = u → c.is_otm = false) := by
  obtain ⟨t, _, _, hband, hbase, _, hotm, _, _⟩ := mem_filterTrades hc
  obtain ⟨m, hm, _, _⟩ := passesBand_iff.mp hband
  obtain ⟨k, u, hk, hu, _⟩ := tradeMoneyness_some hm
  refine ⟨k, u, by rw [hbase]; exact hk, by rw [hbase]; exact hu, ?_, ?_⟩
  · rw [hotm, hbase]
    exact isOtmOf_eq_true_iff hk hu
  · intro hku
    rw [hotm]
    subst hku
    simp [isOtmOf, oltv, hk, hu]

unseal Rat.mul Rat.inv Rat.add Rat.sub Rat.ofScientific in
/-- Witness for C5: the concrete surviving put with strike 440 under an
underlying of 445 satisfies the strict OTM characterisation. -/
theorem otm_strict_witness :
    wCleanGood ∈ filterTrades 5 [wTradeGood, wTradeBad] ∧
      ∃ k u, wCleanGood.base.okey_xx = some k ∧ wCleanGood.base.uPrc = some u ∧
        (wCleanGood.is_otm = true ↔
          (wCleanGood.base.okey_cp = "Put" ∧ k < u) ∨
            (wCleanGood.base.okey_cp = "Call" ∧ u < k)) ∧
        (k = u → wCleanGood.is_otm = false) :=
  ⟨by decide, otm_strict 5 [wTradeGood, wTradeBad] wCleanGood (by decide)⟩

/-- Boolean form of C2's admissibility hypothesis: every trade carries an IV
and a strictly positive size (guaranteed upstream by `filter_trades`). -/
def admissibleB (c : CleanTrade) : Bool :=
  c.base.prtIv.isSome &&
    (match c.base.prtSize with
     | some w => decide (0 < w)
     | none => false)

theorem ivSizePairs_of_admissible {g : List CleanTrade}
    (h : ∀ c ∈ g, admissibleB c = true) :
    ∃ vw, ivSizePairs g = some vw ∧
      vw.map Prod.snd = g.filterMap (fun c => c.base.prtSize) ∧
      (∀ w ∈ vw.map Prod.snd, 0 < w) ∧ vw.length = g.length := by
  induction g with
  | nil => exact ⟨[], rfl, rfl, by simp, rfl⟩
  | cons c g ih =>
    have hc := h c (List.mem_cons_self c g)
    simp only [admissibleB, Bool.and_eq_true, Option.isSome_iff_exists] at hc
    obtain ⟨⟨v, hv⟩, hw⟩ := hc
    obtain ⟨w, hw2, hw3⟩ : ∃ w, c.base.prtSize = some w ∧ 0 < w := by
      cases hsz : c.base.prtSize with
      | none => rw [hsz] at hw; cases hw
      | some w => rw [hsz] at hw; exact ⟨w, rfl, of_decide_eq_true hw⟩
    obtain ⟨vw, hvw, hmap, hpos, hlen⟩ := ih (fun x hx => h x (List.mem_cons_of_mem c hx))
    refine ⟨(v, w) :: vw, ?_, ?_, ?_, ?_⟩
    · simp only [ivSizePairs, hv, hw2, hvw]
    · simp only [List.map_cons, List.filterMap_cons, hw2, hmap]
    · intro x hx
      rcases List.mem_cons.mp hx with rfl | hx2
      · exact hw3
      · exact hpos x hx2
    · simp [hlen]

theorem keyTuple_aggKey {rows : List CleanTrade} {k : GroupKey} :
    keyTuple (aggKey rows k) = k := rfl

theorem filter_key_nil {rows : List CleanTrade} {l : List GroupKey} {k : GroupKey}
    (hk : k ∉ l) :
    ((l.map (aggKey rows)).filter (fun q => decide (keyTuple q = k))).length = 0 := by
  induction l with
  | nil => rfl
  | cons k0 rest ih =>
    have hne : ¬(k0 = k) := fun h => hk (h ▸ List.mem_cons_self k0 rest)
    simp only [List.map_cons, List.filter_cons, keyTuple_aggKey]
    rw [if_neg (by simp [hne])]
    exact ih (fun h => hk (List.mem_cons_of_mem k0 h))

theorem filter_key_one {rows : List CleanTrade} {l : List GroupKey} {k : GroupKey}
    (hnd : l.Nodup) (hk : k ∈ l) :
    ((l.map (aggKey rows)).filter (fun q => decide (keyTuple q = k))).length = 1 := by
  induction l with
  | nil => cases hk
  | cons k0 rest ih =>
    rw [List.nodup_cons] at hnd
    obtain ⟨hk0, hrest⟩ := hnd
    simp only [List.map_cons, List.filter_cons, keyTuple_aggKey]
    by_cases hke : k0 = k
    · subst hke
      rw [if_pos (by simp)]
      rw [List.length_cons, @filter_key_nil rows rest k0 hk0]
    · rw [if_neg (by simp [hke])]
      rcases List.mem_cons.mp hk with h | h
      · exact absurd h.symm hke
      · exact ih hrest h

/-- C2: for a group key present in the admissible input, `aggregate_curves`'s
groupby step produces exactly one curve point for that key, whose IV is the
volume-weighted mean `Σ(iv*size)/Σ(size)` of the group and whose volume is
`Σ(size)`. -/
theorem aggregate_volume_weighted (rows : List CleanTrade) (k : GroupKey)
    (hk : k ∈ (rows.filterMap keyOf).dedup)
    (hadm : rows.all admissibleB = true)
    (p : CurvePoint) (hp : p ∈ groupAgg rows) (hpk : keyTuple p = k) :
    ∃ vw, ivSizePairs (groupOf rows k) = some vw ∧ vw ≠ [] ∧
      p.iv = some ((vw.map (fun q => q.1 * q.2)).sum / (vw.map Prod.snd).sum) ∧
      p.volume = (vw.map Prod.snd).sum ∧
      ((groupAgg rows).filter (fun q => decide (keyTuple q = k))).length = 1 := by
  rw [List.all_eq_true] at hadm
  obtain ⟨k2, hk2, hpk2⟩ := List.mem_map.mp hp
  have hkk : k2 = k := by rw [← hpk, ← hpk2, keyTuple_aggKey]
  subst hkk
  have hgsub : ∀ c ∈ groupOf rows k2, admissibleB c = true := by
    intro c hc
    exact hadm c (List.mem_filter.mp hc).1
  obtain ⟨vw, hvw, hmap, hpos, hlen⟩ := ivSizePairs_of_admissible hgsub
  have hgne : groupOf rows k2 ≠ [] := by
    obtain ⟨c, hc, hck⟩ := List.mem_filterMap.mp (List.mem_dedup.mp hk)
    intro hnil
    have : c ∈ groupOf rows k2 :=
      List.mem_filter.mpr ⟨hc, decide_eq_true hck⟩
    rw [hnil] at this
    cases this
  have hvwne : vw ≠ [] := by
    intro hnil
    apply hgne
    rw [← List.length_eq_zero, ← hlen, hnil]
    rfl
  have hsumpos : 0 < (vw.map Prod.snd).sum := by
    apply List.sum_pos _ hpos
    intro hnil
    exact hvwne (List.map_eq_nil_iff.mp hnil)
  refine ⟨vw, hvw, hvwne, ?_, ?_, ?_⟩
  · rw [← hpk2]
    show groupIv (groupOf rows k2) = _
    rw [groupIv, hvw]
    simp only [ne_of_gt hsumpos, if_false]
  · rw [← hpk2]
    show groupVolume (groupOf rows k2) = _
    rw [groupVolume, ← hmap]
  · exact filter_key_one (List.nodup_dedup _) hk

def wTradeA : Trade :=
  { timestamp := some 570, ticker := "SPY", okey_xx := some 440, okey_cp := "Put"
    prtPrice := some 1, prtSize := some 10, prtIv := some 0.20, uPrc := some 445
    expiration := 14 }

def wTradeB : Trade :=
  { timestamp := some 571, ticker := "SPY", okey_xx := some 440, okey_cp := "Put"
    prtPrice := some 1.1, prtSize := some 30, prtIv := some 0.30, uPrc := some 445
    expiration := 14 }

def wCleanA : CleanTrade :=
  { base := wTradeA, moneyness := some (88 / 89), is_otm := true
    bucket_time := some 570, days_to_exp := some 14 }

def wCleanB : CleanTrade :=
  { base := wTradeB, moneyness := some (88 / 89), is_otm := true
    bucket_time := some 570, days_to_exp := some 14 }

def wKey : GroupKey :=
  { bucket_time := 570, expiration := 14, strike := 440, cp := "Put", is_otm := true }

def wAggP : CurvePoint :=
  { bucket_time := 570, expiration := 14, strike := 440, cp := "Put", is_otm := true
    iv := some (11 / 40), volume := 40, days_to_exp := some 14
    underlying := some 445, moneyness := some (88 / 89) }

unseal Rat.mul Rat.inv Rat.add Rat.sub Rat.ofScientific in
/-- Witness for C2: two trades in one group with sizes 10 and 30 and IVs 0.20
and 0.30 aggregate to exactly one curve point with IV = 11/40 = 0.275 and
volume 40. -/
theorem aggregate_volume_weighted_witness :
    wKey ∈ ([wCleanA, wCleanB].filterMap keyOf).dedup ∧
      [wCleanA, wCleanB].all admissibleB = true ∧
      wAggP ∈ groupAgg [wCleanA, wCleanB] ∧ keyTuple wAggP = wKey ∧
      wAggP.iv = some (11 / 40) ∧ wAggP.volume = 40 ∧
      ∃ vw, ivSizePairs (groupOf [wCleanA, wCleanB] wKey) = some vw ∧ vw ≠ [] ∧
        wAggP.iv = some ((vw.map (fun q => q.1 * q.2)).sum / (vw.map Prod.snd).sum) ∧
        wAggP.volume = (vw.map Prod.snd).sum ∧
        ((groupAgg [wCleanA, wCleanB]).filter
            (fun q => decide (keyTuple q = wKey))).length = 1 :=
  ⟨by decide, by decide, by decide, by decide, by decide, by decide,
    aggregate_volume_weighted [wCleanA, wCleanB] wKey (by decide) (by decide)
      wAggP (by decide) (by decide)⟩

theorem dte_le_filter_true {o : Option ℤ}
    (h : (match o with | some d => decide (d ≤ 60) | none => false) = true) :
    ∃ d, o = some d ∧ d ≤ 60 := by
  cases o with
  | none => cases h
  | some d => exact ⟨d, rfl, of_decide_eq_true h⟩

/-- C3: with the default configuration, every aggregated curve point emitted
by `aggregate_curves` has volume ≥ 2, IV inside the band `[0.05, 0.35]` and
days-to-expiration ≤ 60; in particular no output point comes from a group
consisting of a single size-1 trade. -/
theorem aggregate_post_filter_bounds (rows : List CleanTrade) (p : CurvePoint)
    (hp : p ∈ aggregateCurves 2 rows) :
    (2 : ℚ) ≤ p.volume ∧
      (∃ v, p.iv = some v ∧ (0.05 : ℚ) ≤ v ∧ v ≤ (0.35 : ℚ)) ∧
      (∃ d, p.days_to_exp = some d ∧ d ≤ 60) ∧
      ∀ c, groupOf rows (keyTuple p) = [c] → c.base.prtSize ≠ some 1 := by
  simp only [aggregateCurves] at hp
  rw [List.mem_filter] at hp
  obtain ⟨hp, hdte⟩ := hp
  rw [List.mem_filter] at hp
  obtain ⟨hp, hiv⟩ := hp
  rw [List.mem_filter] at hp
  obtain ⟨hga, hvol⟩ := hp
  have hvol2 : (2 : ℚ) ≤ p.volume := of_decide_eq_true hvol
  refine ⟨hvol2, ?_, dte_le_filter_true hdte, ?_⟩
  · rw [Bool.and_eq_true] at hiv
    obtain ⟨v, hv, hv2⟩ := oge_iff.mp hiv.1
    obtain ⟨v2, hv3, hv4⟩ := ole_iff.mp hiv.2
    rw [hv] at hv3
    exact ⟨v, hv, hv2, (Option.some_inj.mp hv3) ▸ hv4⟩
  · obtain ⟨k2, hk2, hpk2⟩ := List.mem_map.mp hga
    have hkt : keyTuple p = k2 := by rw [← hpk2]; rfl
    have hpv : p.volume = groupVolume (groupOf rows k2) := by rw [← hpk2]; rfl
    intro c hgc hcs
    rw [hkt] at hgc
    rw [hgc] at hpv
    rw [groupVolume] at hpv
    simp only [List.filterMap_cons, hcs, List.filterMap_nil] at hpv
    rw [hpv] at hvol2
    norm_num at hvol2

unseal Rat.mul Rat.inv Rat.add Rat.sub Rat.ofScientific in
/-- Witness for C3: the aggregated point of the concrete two-trade group
passes all three post-aggregation bounds. -/
theorem aggregate_post_filter_bounds_witness :
    wAggP ∈ aggregateCurves 2 [wCleanA, wCleanB] ∧
      ((2 : ℚ) ≤ wAggP.volume ∧
        (∃ v, wAggP.iv = some v ∧ (0.05 : ℚ) ≤ v ∧ v ≤ (0.35 : ℚ)) ∧
        (∃ d, wAggP.days_to_exp = some d ∧ d ≤ 60) ∧
        ∀ c, groupOf [wCleanA, wCleanB] (keyTuple wAggP) = [c] →
          c.base.prtSize ≠ some 1) :=
  ⟨by decide, aggregate_post_filter_bounds [wCleanA, wCleanB] wAggP (by decide)⟩

theorem mapRows_ok_length {f : CsvRow → Except String Trade} {rows : List CsvRow}
    {out : List Trade} (h : mapRows f rows = Except.ok out) :
    out.length = rows.length := by
  induction rows generalizing out with
  | nil =>
    rw [mapRows] at h
    cases h
    rfl
  | cons r rest ih =>
    rw [mapRows] at h
    cases h0 : f r with
    | error e => rw [h0] at h; cases h
    | ok t =>
      rw [h0] at h
      cases h1 : mapRows f rest with
      | error e => rw [h1] at h; cases h
      | ok ts =>
        rw [h1] at h
        cases h
        simp [ih h1]

theorem mapRows_ok_mem {f : CsvRow → Except String Trade} {rows : List CsvRow}
    {out : List Trade} (h : mapRows f rows = Except.ok out) :
    ∀ t ∈ out, ∃ r ∈ rows, f r = Except.ok t := by
  induction rows generalizing out with
  | nil =>
    rw [mapRows] at h
    cases h
    intro t ht
    cases ht
  | cons r rest ih =>
    rw [mapRows] at h
    cases h0 : f r with
    | error e => rw [h0] at h; cases h
    | ok t0 =>
      rw [h0] at h
      cases h1 : mapRows f rest with
      | error e => rw [h1] at h; cases h
      | ok ts =>
        rw [h1] at h
        cases h
        intro t ht
        rcases List.mem_cons.mp ht with rfl | ht2
        · exact ⟨r, List.mem_cons_self r rest, h0⟩
        · obtain ⟨r2, hr2, hr3⟩ := ih h1 t ht2
          exact ⟨r2, List.mem_cons_of_mem r hr2, hr3⟩

theorem toTrade_ticker {r : CsvRow} {t : Trade} (h : toTrade r = Except.ok t) :
    t.ticker = r.ticker_tk := by
  rw [toTrade] at h
  cases hp : parseExpiration r.okey_yr r.okey_mn r.okey_dy with
  | none => rw [hp] at h; cases h
  | some e =>
    rw [hp] at h
    cases h
    rfl

/-- C10: with a ticker column present, `load_trades` keeps exactly the rows
whose ticker equals the hardcoded constant `'SPY'`; an input holding only
other tickers loads to an empty record set. -/
theorem ticker_hardcoded_spy (rows : List CsvRow) (out : List Trade)
    (h : loadTrades true rows = Except.ok out) :
    (∀ t ∈ out, t.ticker = "SPY") ∧
      out.length = (rows.filter (fun r => decide (r.ticker_tk = "SPY"))).length ∧
      ((∀ r ∈ rows, r.ticker_tk ≠ "SPY") → out = []) := by
  simp only [loadTrades, if_true] at h
  refine ⟨?_, mapRows_ok_length h, ?_⟩
  · intro t ht
    obtain ⟨r, hr, hrt⟩ := mapRows_ok_mem h t ht
    rw [List.mem_filter] at hr
    rw [toTrade_ticker hrt]
    exact of_decide_eq_true hr.2
  · intro hall
    have hnil : rows.filter (fun r => decide (r.ticker_tk = "SPY")) = [] := by
      rw [List.filter_eq_nil_iff]
      intro r hr
      simp [hall r hr]
    rw [hnil, mapRows] at h
    cases h
    rfl

def wCsvSpy : CsvRow :=
  { tsParsed := some 870, ticker_tk := "SPY", okey_yr := 1970, okey_mn := 1
    okey_dy := 15, okey_xx := some 440, okey_cp := "Put", prtPrice := some 1
    prtSize := some 10, prtIv := some 0.20, uPrc := some 445 }

def wCsvOther : CsvRow :=
  { tsParsed := some 871, ticker_tk := "QQQ", okey_yr := 1970, okey_mn := 1
    okey_dy := 15, okey_xx := some 440, okey_cp := "Put", prtPrice := some 1
    prtSize := some 10, prtIv := some 0.20, uPrc := some 445 }

def wTradeSpy : Trade :=
  { timestamp := some 570, ticker := "SPY", okey_xx := some 440, okey_cp := "Put"
    prtPrice := some 1, prtSize := some 10, prtIv := some 0.20, uPrc := some 445
    expiration := 14 }

unseal Rat.mul Rat.inv Rat.add Rat.sub Rat.ofScientific in
/-- Witness for C10: of a two-row input holding one SPY row and one QQQ row,
only the SPY row is loaded. -/
theorem ticker_hardcoded_spy_witness :
    loadTrades true [wCsvSpy, wCsvOther] = Except.ok [wTradeSpy] ∧
      ((∀ t ∈ [wTradeSpy], t.ticker = "SPY") ∧
        [wTradeSpy].length =
          ([wCsvSpy, wCsvOther].filter (fun r => decide (r.ticker_tk = "SPY"))).length ∧
        ((∀ r ∈ [wCsvSpy, wCsvOther], r.ticker_tk ≠ "SPY") → [wTradeSpy] = [])) :=
  ⟨by rfl, ticker_hardcoded_spy [wCsvSpy, wCsvOther] [wTradeSpy] (by rfl)⟩

def wCsvBadDate : CsvRow :=
  { tsParsed := some 872, ticker_tk := "SPY", okey_yr := 1970, okey_mn := 13
    okey_dy := 1, okey_xx := some 440, okey_cp := "Put", prtPrice := some 1
    prtSize := some 10, prtIv := some 0.20, uPrc := some 445 }

/-- Counterexample to C7 as stated: a retained row whose expiration components
form no valid calendar date (month 13) makes `load_trades` raise — the
expiration parse of line 28 has no `errors='coerce'` — instead of yielding a
"not available" expiration for that row. -/
theorem malformed_expiration_counterexample :
    loadTrades true [wCsvBadDate] = Except.error expirationErrMsg := by rfl

theorem toTrade_error_msg {r : CsvRow} {e : String} (h : toTrade r = Except.error e) :
    e = expirationErrMsg := by
  rw [toTrade] at h
  cases hp : parseExpiration r.okey_yr r.okey_mn r.okey_dy with
  | none =>
    rw [hp] at h
    cases h
    rfl
  | some d => rw [hp] at h; cases h

theorem mapRows_toTrade_error {rows : List CsvRow} {r : CsvRow} (hr : r ∈ rows)
    (hbad : toTrade r = Except.error expirationErrMsg) :
    mapRows toTrade rows = Except.error expirationErrMsg := by
  induction rows with
  | nil => cases hr
  | cons r0 rest ih =>
    rw [mapRows]
    cases h0 : toTrade r0 with
    | error e => rw [toTrade_error_msg h0]
    | ok t =>
      rcases List.mem_cons.mp hr with rfl | hr2
      · rw [h0] at hbad; cases hbad
      · rw [ih hr2]

/-- C7 amended: a malformed expiration date on a retained row is fatal to
`load_trades` — the composed date string is parsed without coercion, so the
`ValueError` propagates instead of becoming a "not available" value. -/
theorem malformed_expiration_raises (hasT : Bool) (rows : List CsvRow) (r : CsvRow)
    (hr : r ∈ (if hasT then rows.filter (fun x => decide (x.ticker_tk = "SPY")) else rows))
    (hbad : parseExpiration r.okey_yr r.okey_mn r.okey_dy = none) :
    loadTrades hasT rows = Except.error expirationErrMsg := by
  have hterr : toTrade r = Except.error expirationErrMsg := by
    rw [toTrade, hbad]
  simp only [loadTrades]
  exact mapRows_toTrade_error hr hterr

unseal Rat.mul Rat.inv Rat.add Rat.sub Rat.ofScientific in
/-- Witness for the amended C7: one good SPY row followed by a month-13 SPY
row makes the whole load raise. -/
theorem malformed_expiration_raises_witness :
    wCsvBadDate ∈
        (if true then
          [wCsvSpy, wCsvBadDate].filter (fun x => decide (x.ticker_tk = "SPY"))
        else [wCsvSpy, wCsvBadDate]) ∧
      parseExpiration wCsvBadDate.okey_yr wCsvBadDate.okey_mn wCsvBadDate.okey_dy = none ∧
      loadTrades true [wCsvSpy, wCsvBadDate] = Except.error expirationErrMsg :=
  ⟨by decide, by rfl,
    malformed_expiration_raises true [wCsvSpy, wCsvBadDate] wCsvBadDate (by decide) (by rfl)⟩

/-- A trivial always-succeeding stand-in for the external interpolator. -/
def interpOk : Interp := fun _ _ _ => Except.ok []

/-- Counterexample to C6 as stated: on an input producing no frames at all
(here: an empty curve), `build_animation` does not report a non-fatal
"no animatable data" outcome — it raises an uncaught `IndexError` at
`frames[0]` (line 161) that propagates to the caller. -/
theorem empty_frames_counterexample :
    buildAnimation interpOk "both" [] = Except.error indexErrMsg := by rfl

/-- C6 amended: whenever the frame sequence is empty, `build_animation`
raises `IndexError` (from `frames[0]`), which propagates to the caller; the
empty case is fatal rather than reported. -/
theorem empty_frames_index_error (interp : Interp) (view : String)
    (curves : List CurvePoint) (h : buildFrames interp view curves = []) :
    buildAnimation interp view curves = Except.error indexErrMsg := by
  simp only [buildAnimation, h]

/-- Witness for the amended C6 at the concrete empty input. -/
theorem empty_frames_index_error_witness :
    buildFrames interpOk "both" ([] : List CurvePoint) = [] ∧
      buildAnimation interpOk "both" [] = Except.error indexErrMsg :=
  ⟨rfl, empty_frames_index_error interpOk "both" [] rfl⟩

theorem linspace_length (a b : ℚ) (n : ℕ) : (linspace a b n).length = n := by
  rw [linspace, List.length_map, List.length_range]

/-- Decomposition of membership in the frame list of `build_animation`: every
frame comes from a bucket whose view-selected data has at least 5 rows, and
is built with the one spot value computed before the loop. -/
theorem mem_buildFrames {interp : Interp} {view : String} {curves : List CurvePoint}
    {f : Frame} (hf : f ∈ buildFrames interp view curves) :
    ∃ bt ∈ bucketsOf curves,
      5 ≤ ((selectView view curves).filter (fun p => decide (p.bucket_time = bt))).length ∧
      f = mkFrame interp view (medianQ (curves.filterMap (fun p => p.underlying))) bt
        ((selectView view curves).filter (fun p => decide (p.bucket_time = bt))) := by
  simp only [buildFrames] at hf
  rw [List.mem_filterMap] at hf
  obtain ⟨bt, hbt, hsome⟩ := hf
  by_cases hlen :
      ((selectView view curves).filter (fun p => decide (p.bucket_time = bt))).length < 5
  · rw [if_pos hlen] at hsome
    cases hsome
  · rw [if_neg hlen] at hsome
    exact ⟨bt, hbt, Nat.le_of_not_lt hlen, (Option.some_inj.mp hsome).symm⟩

theorem mkFrame_surface_grid {interp : Interp} {view : String} {spot : Option ℚ}
    {bt : ℚ} {btData : List CurvePoint} {tr : SurfaceTrace}
    (h : (mkFrame interp view spot bt btData).surface = some tr) :
    tr.kGrid = kGridOf spot ∧ tr.tGrid = tGridDef := by
  simp only [mkFrame] at h
  by_cases h5 : 5 ≤ (btData.filter (fun p => p.is_otm == true)).length
  · rw [if_pos h5] at h
    cases hint : interp (otmPoints (btData.filter (fun p => p.is_otm == true)))
        (kGridOf spot) tGridDef with
    | ok z =>
      rw [hint] at h
      cases h
      exact ⟨rfl, rfl⟩
    | error e =>
      rw [hint] at h
      cases h
  · rw [if_neg h5] at h
    cases h

theorem mkFrame_surface_none {interp : Interp} {view : String} {spot : Option ℚ}
    {bt : ℚ} {btData : List CurvePoint}
    (hcond : (btData.filter (fun p => p.is_otm == true)).length < 5 ∨
      ∃ e, interp (otmPoints (btData.filter (fun p => p.is_otm == true)))
          (kGridOf spot) tGridDef = Except.error e) :
    (mkFrame interp view spot bt btData).surface = none := by
  rcases hcond with h5 | ⟨e, he⟩
  · simp only [mkFrame]
    rw [if_neg (not_le.mpr h5)]
  · simp only [mkFrame]
    by_cases h5 : 5 ≤ (btData.filter (fun p => p.is_otm == true)).length
    · rw [if_pos h5, he]
    · rw [if_neg h5]

/-- C4: every frame's ATM marker sits at the one spot value — the median
underlying reference price of the whole curve, computed once per run — and
every frame's surface is evaluated on the one fixed grid: 25 evenly spaced
strikes spanning `[0.90*spot, 1.10*spot]` and 18 evenly spaced tenors
spanning `[1, 45]`. -/
theorem fixed_grid_and_spot (interp : Interp) (view : String)
    (curves : List CurvePoint) (f : Frame) (tr : SurfaceTrace) (s : ℚ)
    (hf : f ∈ buildFrames interp view curves)
    (hs : f.surface = some tr)
    (hmed : medianQ (curves.filterMap (fun p => p.underlying)) = some s) :
    f.atmX = some s ∧
      tr.kGrid = (linspace (0.90 * s) (1.10 * s) 25).map some ∧
      tr.tGrid = linspace 1 45 18 ∧
      tr.kGrid.length = 25 ∧ tr.tGrid.length = 18 := by
  obtain ⟨bt, _, _, hfe⟩ := mem_buildFrames hf
  rw [hfe] at hs
  obtain ⟨hk, ht⟩ := mkFrame_surface_grid hs
  have hkg : kGridOf (medianQ (curves.filterMap (fun p => p.underlying))) =
      (linspace (0.90 * s) (1.10 * s) 25).map some := by
    rw [hmed, kGridOf]
  refine ⟨?_, ?_, ?_, ?_, ?_⟩
  · rw [hfe]
    show medianQ (curves.filterMap (fun p => p.underlying)) = some s
    exact hmed
  · rw [hk, hkg]
  · rw [ht]; rfl
  · rw [hk, hkg, List.length_map, linspace_length]
  · rw [ht]
    show tGridDef.length = 18
    rw [tGridDef, linspace_length]

def wCurvePt (k : ℚ) : CurvePoint :=
  { bucket_time := 570, expiration := 14, strike := k, cp := "Put", is_otm := true
    iv := some 0.10, volume := 10, days_to_exp := some 14
    underlying := some 445, moneyness := some (88 / 89) }

def wCurves4 : List CurvePoint :=
  [wCurvePt 440, wCurvePt 441, wCurvePt 442, wCurvePt 443, wCurvePt 444]

def wSurf4 : SurfaceTrace :=
  { kGrid := kGridOf (some 445), tGrid := tGridDef, z := [] }

def wFrame4 : Frame :=
  { name := 570, surface := some wSurf4
    scatters := [ScatterTrace.mk wCurves4 "Put"], atmX := some 445 }

unseal Rat.mul Rat.inv Rat.add Rat.sub Rat.ofScientific in
/-- Witness for C4: a concrete five-put bucket whose frame carries a surface
evaluated on the fixed grid derived from the spot 445. -/
theorem fixed_grid_and_spot_witness :
    wFrame4 ∈ buildFrames interpOk "both" wCurves4 ∧
      wFrame4.surface = some wSurf4 ∧
      medianQ (wCurves4.filterMap (fun p => p.underlying)) = some 445 ∧
      (wFrame4.atmX = some 445 ∧
        wSurf4.kGrid = (linspace (0.90 * 445) (1.10 * 445) 25).map some ∧
        wSurf4.tGrid = linspace 1 45 18 ∧
        wSurf4.kGrid.length = 25 ∧ wSurf4.tGrid.length = 18) :=
  ⟨by decide, by decide, by decide,
    fixed_grid_and_spot interpOk "both" wCurves4 wFrame4 wSurf4 445
      (by decide) (by decide) (by decide)⟩

theorem scatterTraces_join (view : String) (btData : List CurvePoint) :
    ((scatterTraces view btData).map ScatterTrace.pts).flatten =
      (if view = "both" then
        btData.filter (fun p => decide (p.cp = "Put")) ++
          btData.filter (fun p => decide (p.cp = "Call"))
      else btData) := by
  by_cases hv : view = "both"
  · rw [if_pos hv]
    simp only [scatterTraces, if_pos hv]
    by_cases hp : 0 < (btData.filter (fun p => decide (p.cp = "Put"))).length
    · by_cases hc : 0 < (btData.filter (fun p => decide (p.cp = "Call"))).length
      · rw [if_pos hp, if_pos hc]
        simp
      · rw [if_pos hp, if_neg hc]
        have hcn : btData.filter (fun p => decide (p.cp = "Call")) = [] :=
          List.length_eq_zero.mp (Nat.eq_zero_of_not_pos hc)
        rw [hcn]
        simp
    · by_cases hc : 0 < (btData.filter (fun p => decide (p.cp = "Call"))).length
      · rw [if_neg hp, if_pos hc]
        have hpn : btData.filter (fun p => decide (p.cp = "Put")) = [] :=
          List.length_eq_zero.mp (Nat.eq_zero_of_not_pos hp)
        rw [hpn]
        simp
      · rw [if_neg hp, if_neg hc]
        have hpn : btData.filter (fun p => decide (p.cp = "Put")) = [] :=
          List.length_eq_zero.mp (Nat.eq_zero_of_not_pos hp)
        have hcn : btData.filter (fun p => decide (p.cp = "Call")) = [] :=
          List.length_eq_zero.mp (Nat.eq_zero_of_not_pos hc)
        rw [hpn, hcn]
        simp
  · rw [if_neg hv]
    simp only [scatterTraces, if_neg hv]
    simp

/-- C8: if a bucket's frame is built but the bucket has fewer than 5 OTM rows,
or the external scattered-data interpolation raises, then the frame's surface
component is omitted while the bucket's raw scatter points are still emitted
(per-side subsets for the combined view, the whole bucket otherwise). -/
theorem surface_omitted_scatter_kept (interp : Interp) (view : String)
    (curves : List CurvePoint) (bt : ℚ) (f : Frame)
    (hf : f ∈ buildFrames interp view curves) (hname : f.name = bt)
    (hcond : (((selectView view curves).filter
          (fun p => decide (p.bucket_time = bt))).filter
            (fun p => p.is_otm == true)).length < 5 ∨
      ∃ e, interp (otmPoints (((selectView view curves).filter
            (fun p => decide (p.bucket_time = bt))).filter
              (fun p => p.is_otm == true)))
          (kGridOf (medianQ (curves.filterMap (fun p => p.underlying)))) tGridDef =
        Except.error e) :
    f.surface = none ∧
      f.scatters = scatterTraces view
        ((selectView view curves).filter (fun p => decide (p.bucket_time = bt))) ∧
      (f.scatters.map ScatterTrace.pts).flatten =
        (if view = "both" then
          ((selectView view curves).filter
              (fun p => decide (p.bucket_time = bt))).filter
              (fun p => decide (p.cp = "Put")) ++
            ((selectView view curves).filter
                (fun p => decide (p.bucket_time = bt))).filter
                (fun p => decide (p.cp = "Call"))
        else (selectView view curves).filter (fun p => decide (p.bucket_time = bt))) := by
  obtain ⟨b, _, _, hfe⟩ := mem_buildFrames hf
  have hnb : f.name = b := by rw [hfe]; rfl
  rw [hname] at hnb
  subst hnb
  refine ⟨?_, ?_, ?_⟩
  · rw [hfe]
    exact mkFrame_surface_none hcond
  · rw [hfe]
    rfl
  · have hsc : f.scatters = scatterTraces view
        ((selectView view curves).filter (fun p => decide (p.bucket_time = bt))) := by
      rw [hfe]; rfl
    rw [hsc, scatterTraces_join]

def wCurvePt8 (k : ℚ) : CurvePoint :=
  { bucket_time := 570, expiration := 14, strike := k, cp := "Call", is_otm := false
    iv := some 0.10, volume := 10, days_to_exp := some 14
    underlying := some 445, moneyness := some (90 / 89) }

def wCurves8 : List CurvePoint :=
  [wCurvePt8 446, wCurvePt8 447, wCurvePt8 448, wCurvePt8 449, wCurvePt8 450]

def wFrame8 : Frame :=
  { name := 570, surface := none
    scatters := [ScatterTrace.mk wCurves8 "calls"], atmX := some 445 }

unseal Rat.mul Rat.inv Rat.add Rat.sub Rat.ofScientific in
/-- Witness for C8: a five-row calls bucket with no OTM rows gets a frame with
no surface but with its scatter points emitted. -/
theorem surface_omitted_scatter_kept_witness :
    wFrame8 ∈ buildFrames interpOk "calls" wCurves8 ∧ wFrame8.name = 570 ∧
      (((selectView "calls" wCurves8).filter
          (fun p => decide (p.bucket_time = 570))).filter
            (fun p => p.is_otm == true)).length < 5 ∧
      (wFrame8.surface = none ∧
        wFrame8.scatters = scatterTraces "calls"
          ((selectView "calls" wCurves8).filter
            (fun p => decide (p.bucket_time = 570))) ∧
        (wFrame8.scatters.map ScatterTrace.pts).flatten =
          (if "calls" = "both" then
            ((selectView "calls" wCurves8).filter
                (fun p => decide (p.bucket_time = 570))).filter
                (fun p => decide (p.cp = "Put")) ++
              ((selectView "calls" wCurves8).filter
                  (fun p => decide (p.bucket_time = 570))).filter
                  (fun p => decide (p.cp = "Call"))
          else (selectView "calls" wCurves8).filter
            (fun p => decide (p.bucket_time = 570)))) :=
  ⟨by decide, by decide, by decide,
    surface_omitted_scatter_kept interpOk "calls" wCurves8 570 wFrame8
      (by decide) (by decide) (Or.inl (by decide))⟩

/-- C9: a bucket whose view-selected data has fewer than 5 rows produces no
frame at all, and the frame construction is deterministic: re-running on the
identical input yields the identical result. -/
theorem sparse_bucket_no_frame (interp : Interp) (view : String)
    (curves : List CurvePoint) (bt : ℚ)
    (h : ((selectView view curves).filter
        (fun p => decide (p.bucket_time = bt))).length < 5)
    (f : Frame) (hf : f ∈ buildFrames interp view curves) :
    f.name ≠ bt ∧ buildFrames interp view curves = buildFrames interp view curves := by
  refine ⟨?_, rfl⟩
  obtain ⟨b, _, hlen, hfe⟩ := mem_buildFrames hf
  intro hfn
  have hnb : f.name = b := by rw [hfe]; rfl
  rw [hfn] at hnb
  subst hnb
  omega

def wPt9 : CurvePoint :=
  { bucket_time := 575, expiration := 14, strike := 451, cp := "Call", is_otm := false
    iv := some 0.10, volume := 10, days_to_exp := some 14
    underlying := some 445, moneyness := some (90 / 89) }

def wCurves9 : List CurvePoint :=
  [wCurvePt8 446, wCurvePt8 447, wCurvePt8 448, wCurvePt8 449, wCurvePt8 450, wPt9]

def wFrame9 : Frame :=
  { name := 570, surface := none
    scatters := [ScatterTrace.mk wCurves8 "calls"], atmX := some 445 }

unseal Rat.mul Rat.inv Rat.add Rat.sub Rat.ofScientific in
/-- Witness for C9: with a single-row bucket at 575 next to a full bucket at
570, the only emitted frame is the 570 one — no frame is named 575. -/
theorem sparse_bucket_no_frame_witness :
    ((selectView "calls" wCurves9).filter
        (fun p => decide (p.bucket_time = 575))).length < 5 ∧
      wFrame9 ∈ buildFrames interpOk "calls" wCurves9 ∧
      (wFrame9.name ≠ 575 ∧
        buildFrames interpOk "calls" wCurves9 = buildFrames interpOk "calls" wCurves9) :=
  ⟨by decide, by decide,
    sparse_bucket_no_frame interpOk "calls" wCurves9 575 (by decide) wFrame9 (by decide)⟩

end VolSurface
